import Mathlib

/-!
Shallow embedding of the NLU core of the Bot-Trainer-NLU repository
(`backend/routes/nlu_routes.py`, `backend/routes/active_learning_routes.py`,
`backend/routes/evaluation_routes.py`) together with theorems checking the
natural-language specification against the code.

Python strings are modelled as Lean `String`s (character lists); Python's
`float` scores are modelled as exact rationals `ℚ` where the code only
compares and copies them, and by the four-constructor type `PyFloat`
(finite, nan, positive and negative infinity) where finiteness itself is at
stake.  Third-party
library calls (scikit-learn fitting, the spaCy text categorizer, the CRF
tagger, an external Rasa server) are modelled as explicit oracle parameters;
everything else is translated directly from the source.
-/

namespace BotTrainer

/-! ### Python string primitives -/

/-- Python whitespace characters stripped by `str.strip()` (ASCII subset). -/
def isPyWs (c : Char) : Bool :=
  c == ' ' || c == '\t' || c == '\n' || c == '\x0d' || c == '\x0b' || c == '\x0c'

/-- Model of `str.strip()` on a character list. -/
def pyStripList (l : List Char) : List Char :=
  ((l.dropWhile isPyWs).reverse.dropWhile isPyWs).reverse

/-- Model of `str.strip()`. -/
def pyStrip (s : String) : String := ⟨pyStripList s.toList⟩

/-- Model of `str.lower()` (ASCII case folding, as used by the routes on label/intent
strings). -/
def pyLower (s : String) : String := ⟨s.toList.map Char.toLower⟩

/-- Model of `str.strip(chars)`: remove any of the given characters from both ends. -/
def pyStripChars (cs : List Char) (s : String) : String :=
  let l := s.toList.dropWhile (· ∈ cs)
  ⟨(l.reverse.dropWhile (· ∈ cs)).reverse⟩

/-- The normalisation `str(x or "").strip().lower()` that the routes apply to
every label / intent string. -/
def pyNormLabel (s : String) : String := pyLower (pyStrip s)

/-- Python's `x or y` for strings: `y` when `x` is empty (falsy). -/
def pyOrStr (x y : String) : String := if x = "" then y else x

/-- Python's `x or y` for an optional string (`None` and `""` are falsy). -/
def pyOrOptStr (x : Option String) (y : String) : String :=
  match x with
  | none => y
  | some s => pyOrStr s y

/-- Stable insertion (ascending, `≤` on strings) used to model
`sorted(...)`. -/
def insertStrLe (x : String) : List String → List String
  | [] => [x]
  | y :: ys => if x ≤ y then x :: y :: ys else y :: insertStrLe x ys

/-- Model of `sorted(l)` for a list of strings (stable, ascending). -/
def pySortedStr (l : List String) : List String :=
  l.foldr insertStrLe []

/-- Model of `sorted(set(l))`: distinct elements in ascending order. -/
def pySortedSet (l : List String) : List String :=
  pySortedStr l.dedup

/-! ### Span Reconciler: `_deduplicate_entities` -/

/-- An entity span dict as passed to `_deduplicate_entities`
(`nlu_routes.py`): keys `text`, `label`, `score`, and optional integer
offsets `start`/`end` (`none` models a missing or non-integer value). -/
structure Entity where
  text : String
  label : String
  score : ℚ
  start : Option Int
  stop : Option Int
deriving Repr, DecidableEq

/-- Model of `norm_text` inside `_deduplicate_entities`: strip whitespace, then strip
the punctuation set `"\"'.,;:!?)({}[]"`. -/
def norm_text (s : String) : String :=
  pyStripChars ['\"', '\'', '.', ',', ';', ':', '!', '?', ')', '(', '\x7b', '\x7d', '[', ']']
    (pyStrip s)

/-- First-pass dedup key: `(label, start, end)` when the offsets are
well-formed integers, else `(label, norm_text(text.lower()))`. -/
inductive DedupKey
  | offsets (label : String) (start stop : Int)
  | byText (label : String) (normed : String)
deriving Repr, DecidableEq

/-- The key chosen for an entity in the first pass of
`_deduplicate_entities`. -/
def entityKey (e : Entity) : DedupKey :=
  let lbl := pyLower e.label
  match e.start, e.stop with
  | some s, some t =>
      if 0 ≤ s ∧ s < t then .offsets lbl s t
      else .byText lbl (norm_text (pyLower e.text))
  | _, _ => .byText lbl (norm_text (pyLower e.text))

/-- Span length `e.get("end", 0) - e.get("start", 0)` used by the
tie-break. -/
def entitySpanLen (e : Entity) : Int := e.stop.getD 0 - e.start.getD 0

/-- The replacement test of the first pass: a new entry wins over the stored
one when its score is higher, or equal with a longer span. -/
def entityBeats (e prev : Entity) : Bool :=
  decide (prev.score < e.score) ||
    (decide (e.score = prev.score) && decide (entitySpanLen prev < entitySpanLen e))

/-- Insert/update one entity in the insertion-ordered key map (Python dict
semantics: the first insertion fixes the position; updates keep it). -/
def updateByKey (k : DedupKey) (e : Entity) : List (DedupKey × Entity) → List (DedupKey × Entity)
  | [] => [(k, e)]
  | (k', e') :: rest =>
      if k = k' then (if entityBeats e e' then (k, e) else (k', e')) :: rest
      else (k', e') :: updateByKey k e rest

/-- First pass of `_deduplicate_entities`: exact-key grouping keeping the
best-scoring entry per key, in first-insertion order. -/
def dedupByKey (entities : List Entity) : List Entity :=
  (entities.foldl (fun m e => updateByKey (entityKey e) e m) []).map Prod.snd

/-- Interval intersection-over-union of two entity spans, `0` when any offset
is missing (the `iou` helper inside `_deduplicate_entities`, with exact
rational division in place of float division). -/
def iou (a b : Entity) : ℚ :=
  match a.start, a.stop, b.start, b.stop with
  | some sa, some ea, some sb, some eb =>
      let inter : Int := max 0 (min ea eb - max sa sb)
      if inter = 0 then 0
      else
        let union : Int := (ea - sa) + (eb - sb) - inter
        if 0 < union then (inter : ℚ) / (union : ℚ) else 0
  | _, _, _, _ => 0

/-- Stable insertion for the descending-score sort
(`deduped.sort(key=score, reverse=True)`). -/
def insertScoreDesc (e : Entity) : List Entity → List Entity
  | [] => [e]
  | f :: fs => if f.score ≤ e.score then e :: f :: fs else f :: insertScoreDesc e fs

/-- Stable descending sort by score. -/
def sortScoreDesc (l : List Entity) : List Entity :=
  l.foldr insertScoreDesc []

/-- One step of the second (greedy) pass: keep `e` unless an already-accepted
entity with the same (lowercased) label overlaps it with IoU ≥ 0.8. -/
def greedyStep (final : List Entity) (e : Entity) : List Entity :=
  if final.any (fun f =>
      decide (pyLower e.label = pyLower f.label) && decide ((4 : ℚ) / 5 ≤ iou e f)) then
    final
  else final ++ [e]

/-- Second pass of `_deduplicate_entities`: greedy same-label IoU
suppression over the score-sorted list. -/
def greedyPass (deduped : List Entity) : List Entity :=
  deduped.foldl greedyStep []

/-- Model of `_deduplicate_entities(source_text, entities)` (the `source_text`
argument is unused by the source as well). -/
def deduplicate_entities (source_text : String) (entities : List Entity) : List Entity :=
  if entities = [] then []
  else greedyPass (sortScoreDesc (dedupByKey entities))

/-! ### Token offsets: `_token_offsets` -/

/-- Model of `str.find(sub, start)` on character lists: the least position `i ≥ start`
at which `sub` occurs in `hay` (`none` models Python's `-1`). -/
def pyFind (hay sub : List Char) (start : Nat) : Option Nat :=
  (List.range (hay.length + 1)).find?
    (fun i => decide (start ≤ i) && sub.isPrefixOf (hay.drop i))

/-- Lower-case a character list (`str.lower()` at character level). -/
def lowerChars (l : List Char) : List Char := l.map Char.toLower

/-- The index chosen by `_token_offsets` for one token: forward search from
the cursor, else a search from the beginning, else the cursor itself. -/
def tokenIdx (textLower tokenLower : List Char) (cursor : Nat) : Nat :=
  match pyFind textLower tokenLower cursor with
  | some i => i
  | none =>
    match pyFind textLower tokenLower 0 with
    | some i => i
    | none => cursor

/-- The cursor-advancing loop of `_token_offsets`. -/
def tokenOffsetsGo (textLower : List Char) : List (List Char) → Nat → List (Nat × Nat)
  | [], _ => []
  | token :: rest, cursor =>
    let idx := tokenIdx textLower (lowerChars token) cursor
    (idx, idx + token.length) ::
      tokenOffsetsGo textLower rest (max (idx + token.length) (cursor + token.length))

/-- Model of `_token_offsets(text, tokens)`: case-insensitive forward-scanning
recovery of per-token character offsets. -/
def token_offsets (text : List Char) (tokens : List (List Char)) : List (Nat × Nat) :=
  tokenOffsetsGo (lowerChars text) tokens 0

/-- The property claimed for `_token_offsets`: consecutive offset pairs never
overlap (the end of each token is at or before the start of the next). -/
def offsetsSeparated (offsets : List (Nat × Nat)) : Prop :=
  List.Chain' (fun p q => p.2 ≤ q.1) offsets

/-- The side condition under which `_token_offsets` never takes a fallback
branch: every token is found by the forward search from the current
cursor. -/
def forwardSearchOk (textLower : List Char) : List (List Char) → Nat → Bool
  | [], _ => true
  | token :: rest, cursor =>
    match pyFind textLower (lowerChars token) cursor with
    | some i => forwardSearchOk textLower rest (max (i + token.length) (cursor + token.length))
    | none => false

/-! ### BIO decoding: `_bio_to_spans` -/

/-- An entity span produced by `_bio_to_spans`. -/
structure BioSpan where
  text : List Char
  label : String
  start : Nat
  stop : Nat
  score : ℚ
deriving Repr, DecidableEq

/-- Model of `s.startswith(p)` (via character lists, which the kernel can
evaluate). -/
def pyStartsWith (s p : String) : Bool := p.toList.isPrefixOf s.toList

/-- Python slice `text[start:stop]` for `0 ≤ start ≤ stop`. -/
def pySlice (text : List Char) (start stop : Nat) : List Char :=
  (text.drop start).take (stop - start)

/-- The inner `while` of `_bio_to_spans`: starting after a `B-` tag, consume
the contiguous run of matching `I-` tags, extending the span end to
`offsets[j][1]` at each step.  The source indexes `offsets[j]` and raises
`IndexError` when `j` is past the last token; the model returns `.error`
there.  On success it returns the index after the run, the final end offset,
and the remaining tags. -/
def bioExtend (offsets : List (Nat × Nat)) (core : String) :
    List String → Nat → Nat → Except String (Nat × Nat × List String)
  | [], j, e => .ok (j, e, [])
  | tag :: rest, j, e =>
    if tag = "I-" ++ core then
      match offsets.get? j with
      | some off => bioExtend offsets core rest (j + 1) off.2
      | none => .error "list index out of range"
    else .ok (j, e, tag :: rest)

/-- The outer `while` of `_bio_to_spans`, with fuel for termination (the
source loop advances the index by at least one per iteration, so fuel equal
to the number of tags is always enough).  A `B-` tag reads `offsets[i]`,
which raises `IndexError` — modelled as `.error` — when the tag list is
longer than the token list and the tag sits past the last token. -/
def bioSpansGo (offsets : List (Nat × Nat)) (text : List Char) :
    Nat → List String → Nat → Except String (List BioSpan)
  | 0, _, _ => .ok []
  | _, [], _ => .ok []
  | fuel + 1, tag :: rest, i =>
    if tag = "" ∨ tag = "O" then bioSpansGo offsets text fuel rest (i + 1)
    else if pyStartsWith tag "B-" then
      let core := tag.drop 2
      match offsets.get? i with
      | none => .error "list index out of range"
      | some off =>
        match bioExtend offsets core rest (i + 1) off.2 with
        | .error msg => .error msg
        | .ok (j, e, rest2) =>
          match bioSpansGo offsets text fuel rest2 j with
          | .error msg => .error msg
          | .ok spans =>
            .ok ({ text := pySlice text off.1 e, label := pyLower core,
                   start := off.1, stop := e, score := mkRat 9 10 } :: spans)
    else bioSpansGo offsets text fuel rest (i + 1)

/-- Model of `_bio_to_spans(tokens, labels, text)`: `.error` models an
uncaught `IndexError` from the out-of-range `offsets[...]` accesses. -/
def bio_to_spans (tokens : List (List Char)) (labels : List String) (text : List Char) :
    Except String (List BioSpan) :=
  if tokens = [] ∨ labels = [] then .ok []
  else bioSpansGo (token_offsets text tokens) text labels.length labels 0

/-! ### Intent classifiers

A fitted scikit-learn style classifier is modelled by its observable
interface: `predictOne` for `model.predict([text])[0]`, `predictProbaOne`
for `model.predict_proba([text])[0]` (`none` models a model without that
method, so that calling it raises, e.g. `LinearSVC` and the NERT-lite
majority classifier), and `classes` for `_extract_classes` (which reads
`classes_` directly or through `named_steps["clf"]`). -/

structure SkModel where
  predictOne : String → String
  predictProbaOne : Option (String → List ℚ)
  classes : List String

/-- The `_MajorityClassifier` installed by `_train_text_classifier`
(rasa-lite) for single-label data: constant prediction, `predict_proba`
returning `[[1.0]]`. -/
def majorityClassifierRasa (label : String) : SkModel :=
  { predictOne := fun _ => label
    predictProbaOne := some fun _ => [1]
    classes := [label] }

/-- The `_MajorityClassifier` installed by `train_nert` for single-label
data: constant prediction, no `predict_proba` (it only has
`decision_function`). -/
def majorityClassifierNert (label : String) : SkModel :=
  { predictOne := fun _ => label
    predictProbaOne := none
    classes := [label] }

/-- First index of an element in a list (`list.index`, as an option). -/
def pyIndexOf (l : List String) (x : String) : Option Nat :=
  l.findIdx? (· = x)

/-- Model of `_predict_with_confidence(model, text, default_confidence)`. -/
def predict_with_confidence (model : SkModel) (text : String) (default_confidence : ℚ) :
    String × ℚ :=
  let intent := model.predictOne text
  match model.predictProbaOne with
  | none =>
    -- `predict_proba` raised: fall back, except for a single-class model.
    if model.classes = [intent] then (intent, 1) else (intent, default_confidence)
  | some proba =>
    let probabilities := proba text
    if model.classes ≠ [] ∧ probabilities.length = model.classes.length then
      match pyIndexOf model.classes intent with
      | some idx => (intent, probabilities.getD idx default_confidence)
      | none => (intent, default_confidence)
    else if probabilities.length = 1 then
      (intent, probabilities.headD default_confidence)
    else (intent, default_confidence)

/-- Model of `_train_text_classifier(texts, labels)`.  The scikit-learn pipeline fit
for two or more classes is the oracle `fit` (it receives the raw texts and
the normalised labels and may raise); the single-label branch installs the
majority classifier without consulting it. -/
def train_text_classifier (fit : List String → List String → Except String SkModel)
    (texts labels : List String) : Except String (SkModel × List String) :=
  if texts = [] ∨ labels = [] ∨ texts.length ≠ labels.length then
    .error "texts and labels must be non-empty and equal length"
  else
    let processed_labels := labels.map pyNormLabel
    let unique_labels := pySortedSet processed_labels
    if unique_labels = [] then .error "No valid labels supplied"
    else if unique_labels.length = 1 then
      .ok (majorityClassifierRasa (unique_labels.headD ""), unique_labels)
    else
      match fit texts processed_labels with
      | .error e => .error e
      | .ok pipeline =>
        let classes := if pipeline.classes ≠ [] then pipeline.classes else unique_labels
        .ok (pipeline, classes)

/-! ### Engine state and training routes

The module-level globals of `nlu_routes.py` that the train/predict routes
read and write.  The spaCy text categorizer is modelled by its label list
and a scoring oracle (`none` models `predict` returning no scores); the CRF
entity model is irrelevant to intent prediction and kept abstract. -/

structure SpacyTextcat where
  labels : List String
  score : String → Option (List ℚ)

structure CrfModel where
  predictTags : List (List Char) → List String

structure NluState where
  spacy_textcat : Option SpacyTextcat
  rasa_intent_model : Option SkModel
  rasa_intent_labels : Option (List String)
  nert_intent_model : Option SkModel
  nert_intent_labels : Option (List String)
  crf_model : Option CrfModel
  crf_loaded : Bool

/-- The untrained initial state (all module globals `None`/`False`). -/
def initialState : NluState :=
  { spacy_textcat := none, rasa_intent_model := none, rasa_intent_labels := none
    nert_intent_model := none, nert_intent_labels := none
    crf_model := none, crf_loaded := false }

/-- An HTTP error response (`HTTPException(status_code, detail)`). -/
structure HttpError where
  code : Nat
  detail : String
deriving Repr, DecidableEq

/-- Model of `train_spacy_intent` (route `/train/intent/spacy`), after
authentication.  `fit` is the in-memory spaCy training loop: given the raw
texts, the raw labels and the epoch count it returns the trained
categorizer's scoring function, or raises.  The route clears only the spaCy
slot before validating, stores the trained model on success, and the label
vocabulary is the sorted set of normalised labels. -/
def train_spacy_intent
    (fit : List String → List String → Int → Except String (String → Option (List ℚ)))
    (st : NluState) (texts labels : List String) (epochs : Option Int) :
    NluState × Except HttpError (List String) :=
  let st1 := { st with spacy_textcat := none }
  if texts = [] ∨ labels = [] ∨ texts.length ≠ labels.length then
    (st1, .error ⟨400, "texts and labels must be same length and non-empty"⟩)
  else
    let labelSet := pySortedSet (labels.map pyNormLabel)
    let nEpochs := match epochs with | none => 8 | some e => if e = 0 then 8 else e
    match fit texts labels nEpochs with
    | .error e => (st1, .error ⟨500, "spaCy training failed: " ++ e⟩)
    | .ok score =>
      ({ st1 with spacy_textcat := some ⟨labelSet, score⟩ }, .ok labelSet)

/-- Model of `train_rasa_intent` (route `/train/intent/rasa-lite`), after
authentication: clears only the rasa-lite slot, then fits via
`_train_text_classifier`. -/
def train_rasa_intent (fit : List String → List String → Except String SkModel)
    (st : NluState) (texts labels : List String) :
    NluState × Except HttpError (List String) :=
  let st1 := { st with rasa_intent_model := none, rasa_intent_labels := none }
  if texts = [] ∨ labels = [] ∨ texts.length ≠ labels.length then
    (st1, .error ⟨400, "texts and labels must be same length and non-empty"⟩)
  else
    match train_text_classifier fit texts labels with
    | .error e => (st1, .error ⟨500, "Rasa-lite training failed: " ++ e⟩)
    | .ok (model, classes) =>
      ({ st1 with rasa_intent_model := some model, rasa_intent_labels := some classes },
       .ok classes)

/-- One training record of the NERT-lite payload. -/
structure NertRecord where
  text : String
  intent : String
  entities : List Entity
deriving DecidableEq

/-- Model of `train_nert` (route `/train/ner/nert-lite`), after authentication.
`fit` is the TF-IDF + LinearSVC pipeline fit; `crfFit` is the CRF entity
training block (`none` models "no labelled tokens" or a raised exception,
both of which leave the CRF untrained).  The route clears the NERT slot and
the CRF model (but not `crf_loaded`) before validating. -/
def train_nert (fit : List String → List String → Except String SkModel)
    (crfFit : List NertRecord → Option CrfModel)
    (st : NluState) (records : List NertRecord) :
    NluState × Except HttpError (List String) :=
  let st1 := { st with nert_intent_model := none, nert_intent_labels := none,
                       crf_model := none }
  if records = [] then
    (st1, .error ⟨400, "records must be non-empty"⟩)
  else
    let texts := records.map (·.text)
    let labels := records.map (fun r => pyNormLabel r.intent)
    let unique_labels := pySortedSet labels
    if unique_labels = [] then
      (st1, .error ⟨400, "No valid intent labels supplied"⟩)
    else
      let fitted : Except String (SkModel × List String) :=
        if unique_labels.length = 1 then
          .ok (majorityClassifierNert (unique_labels.headD ""), unique_labels)
        else
          match fit texts labels with
          | .error e => .error e
          | .ok m =>
            .ok (m, if m.classes ≠ [] then m.classes else unique_labels)
      match fitted with
      | .error e => (st1, .error ⟨500, "NERT-lite training failed: " ++ e⟩)
      | .ok (model, classes) =>
        let st2 := { st1 with nert_intent_model := some model,
                              nert_intent_labels := some classes }
        let any_entities := records.any (fun r => !r.entities.isEmpty)
        let crf := if any_entities then crfFit records else none
        match crf with
        | some c => ({ st2 with crf_model := some c, crf_loaded := true }, .ok classes)
        | none => (st2, .ok classes)

/-! ### Prediction -/

/-- First index of the maximum (`probs.index(max(probs))`). -/
def argmaxIdx (l : List ℚ) : Option Nat :=
  match l with
  | [] => none
  | x :: xs => l.findIdx? (fun q => decide (q = xs.foldl max x))

/-- The `except Exception` wrapper around the body of `predict`: any error
raised inside (including `HTTPException`s) is re-raised as a 500
"Prediction failed". -/
def wrap500 (r : Except HttpError (String × ℚ)) : Except HttpError (String × ℚ) :=
  match r with
  | .ok v => .ok v
  | .error e => .error ⟨500, "Prediction failed: " ++ e.detail⟩

/-- Model of `predict` (route `/predict`), after authentication, restricted to the
intent/confidence pair (the entity list of the response never feeds back
into the properties below).  `rasaExternal` models the external Rasa
server / loaded interpreter fallback: `none` when neither is available. -/
def predict (st : NluState) (rasaExternal : String → Option (String × ℚ))
    (text0 : String) (model_id : Option String) : Except HttpError (String × ℚ) :=
  let text := pyStrip text0
  if text = "" then .error ⟨400, "Text is required"⟩
  else
    let engine := pyLower (pyOrOptStr model_id "spacy")
    wrap500 <|
      if engine = "rasa" then
        match st.rasa_intent_model with
        | some model =>
          let classes := model.classes
          let default_conf : ℚ := if 1 < classes.length then 95 / 100 else 1
          .ok (predict_with_confidence model text default_conf)
        | none =>
          match rasaExternal text with
          | some res => .ok res
          | none => .error ⟨503, "Rasa interpreter not available."⟩
      else if engine = "nert" then
        match st.nert_intent_model with
        | none => .error ⟨503, "NERT intent model not trained."⟩
        | some model =>
          let default_conf : ℚ := if 1 < model.classes.length then 9 / 10 else 1
          .ok (predict_with_confidence model text default_conf)
      else if engine = "intent" ∨ engine = "hf" ∨ engine = "transformer" then
        .error ⟨503, "HF-based intent models are disabled in this deployment."⟩
      else
        match st.spacy_textcat with
        | none => .error ⟨503, "spaCy textcat model not trained."⟩
        | some model =>
          match model.score text with
          | none => .error ⟨500, "spaCy intent model returned no scores"⟩
          | some doc_scores =>
            let winner : Option (String × ℚ) :=
              if model.labels ≠ [] ∧ model.labels.length = doc_scores.length then
                match argmaxIdx doc_scores with
                | some i => some (model.labels.getD i "", doc_scores.getD i 0)
                | none => none
              else none
            match winner with
            | some w => .ok w
            | none => .error ⟨500, "Unable to determine intent from spaCy textcat scores"⟩

/-- One entry of the `predict_batch` response. -/
structure BatchEntry where
  text : String
  intent : String
  confidence : ℚ
  error : Option String
deriving Repr, DecidableEq

/-- The per-item body of the `predict_batch` loop: blank items short-circuit
to an "unknown" entry without calling `predict`; a raising `predict` call
degrades the item to an "error" entry. -/
def batchItem (st : NluState) (rasaExternal : String → Option (String × ℚ))
    (engine : String) (text : String) : BatchEntry :=
  let t := pyStrip text
  if t = "" then { text := t, intent := "unknown", confidence := 0, error := none }
  else
    match predict st rasaExternal t (some engine) with
    | .ok (intent, confidence) =>
      { text := t, intent := pyLower (pyStrip intent), confidence := confidence, error := none }
    | .error e =>
      { text := t, intent := "error", confidence := 0, error := some e.detail }

/-- Model of `predict_batch` (route `/predict/batch`), after authentication (the
`strict` flag is read and discarded by the source). -/
def predict_batch (st : NluState) (rasaExternal : String → Option (String × ℚ))
    (texts : List String) (model_id : Option String) (strict : Bool) :
    Except HttpError (List BatchEntry) :=
  if texts = [] then .error ⟨400, "At least one text is required"⟩
  else
    let engine := pyLower (pyOrOptStr model_id "spacy")
    let _ := strict
    .ok (texts.map (batchItem st rasaExternal engine))

/-! ### Active-Learning Selector: `suggest_uncertain_samples`
(`active_learning_routes.py`) -/

/-- One review item of the `suggest` response (`is_wrong` is Python's
`True`/`False`/`None`). -/
structure ReviewItem where
  text : String
  predicted_intent : String
  predicted_confidence : ℚ
  is_wrong : Option Bool
deriving Repr, DecidableEq

/-- Python's `x or y` for an optional float (`None` and `0.0` are falsy), as
in `float(payload.threshold or 0.5)`. -/
def pyOrQ (x : Option ℚ) (y : ℚ) : ℚ :=
  match x with
  | none => y
  | some q => if q = 0 then y else q

/-- The per-prediction body of the `suggest` loop: with ground truth, keep
wrong predictions (flagged `is_wrong=True`) and correct-but-unconfident ones
(`is_wrong=False`); without ground truth, keep low-confidence ones
(`is_wrong=None`). -/
def suggestItem (actual_intents : List String) (has_labels : Bool) (thr : ℚ)
    (idxp : Nat × BatchEntry) : Option ReviewItem :=
  let idx := idxp.1
  let p := idxp.2
  let conf := p.confidence
  let actual : Option String :=
    if has_labels ∧ idx < actual_intents.length then
      some (pyNormLabel (actual_intents.getD idx ""))
    else none
  let predicted := pyNormLabel p.intent
  match actual with
  | some a =>
    if predicted ≠ a then
      some { text := p.text, predicted_intent := p.intent,
             predicted_confidence := conf, is_wrong := some true }
    else if conf ≤ thr then
      some { text := p.text, predicted_intent := p.intent,
             predicted_confidence := conf, is_wrong := some false }
    else none
  | none =>
    if conf ≤ thr then
      some { text := p.text, predicted_intent := p.intent,
             predicted_confidence := conf, is_wrong := none }
    else none

/-- The sort key `(not x.get("is_wrong", False), x.get("predicted_confidence", 0.0))`:
first component is Python `not` of the stored value (`not None` is `True`). -/
def reviewSortKey1 (it : ReviewItem) : Bool := !(it.is_wrong.getD false)

/-- Python tuple `≤` on the sort keys (`False < True`). -/
def reviewKeyLe (a b : ReviewItem) : Bool :=
  (!reviewSortKey1 a && reviewSortKey1 b) ||
    (reviewSortKey1 a == reviewSortKey1 b &&
      decide (a.predicted_confidence ≤ b.predicted_confidence))

/-- Stable insertion for `items.sort(key=...)` (ascending). -/
def insertReview (x : ReviewItem) : List ReviewItem → List ReviewItem
  | [] => [x]
  | y :: ys => if reviewKeyLe x y then x :: y :: ys else y :: insertReview x ys

/-- Stable ascending sort of review items. -/
def sortReview (l : List ReviewItem) : List ReviewItem :=
  l.foldr insertReview []

/-- The `suggest` response fields used by the properties below. -/
structure SuggestResp where
  threshold : ℚ
  items : List ReviewItem
  count : Nat
  wrong_predictions : Nat
deriving Repr, DecidableEq

/-- Model of `suggest_uncertain_samples` (route `/active-learning/suggest`), after
authentication. -/
def suggest (st : NluState) (rasaExternal : String → Option (String × ℚ))
    (texts : List String) (actual_intents0 : Option (List String))
    (model_id : Option String) (threshold : Option ℚ) : Except HttpError SuggestResp :=
  if texts = [] then .error ⟨400, "texts must be non-empty"⟩
  else
    match predict_batch st rasaExternal texts (some (pyOrOptStr model_id "spacy")) false with
    | .error e => .error e
    | .ok preds =>
      let thr := pyOrQ threshold (1 / 2)
      let actual_intents := actual_intents0.getD []
      let has_labels := actual_intents.length = texts.length
      let items := sortReview
        ((preds.enum).filterMap (suggestItem actual_intents (decide has_labels) thr))
      .ok { threshold := thr, items := items, count := items.length,
            wrong_predictions := (items.filter (fun x => x.is_wrong == some true)).length }

/-! ### Evaluation Engine (`evaluation_routes.py`) -/

/-- A Python float: either an exact finite value or one of the non-finite
values that `safe_round` must squash. -/
inductive PyFloat
  | finite (q : ℚ)
  | nan
  | inf
  | ninf
deriving Repr, DecidableEq

/-- Finiteness of a Python float. -/
def PyFloat.isFinite : PyFloat → Bool
  | .finite _ => true
  | _ => false

/-- Model of `safe_round(x)`: substitute `0.0` for NaN and infinities. -/
def safe_round : PyFloat → PyFloat
  | .finite q => .finite q
  | _ => .finite 0

/-- The scikit-learn metric calls, as oracles.  `none` models a raised
exception; the per-label variant returns the rows of the
`precision_recall_fscore_support(..., labels=labels)` arrays as a function
of the label. -/
structure MetricsOracle where
  accuracy_score : List String → List String → Option PyFloat
  prfsMacro : List String → List String → Option (PyFloat × PyFloat × PyFloat)
  prfsPerLabel : List String → List String → List String →
    Option (String → PyFloat × PyFloat × PyFloat × Nat)

/-- The `metrics` block of an evaluation report. -/
structure Metrics where
  accuracy : PyFloat
  precision : PyFloat
  recallVal : PyFloat
  f1 : PyFloat
deriving Repr, DecidableEq

/-- Model of `metrics_summary(y_true, y_pred)`. -/
def metrics_summary (orc : MetricsOracle) (y_true y_pred : List String) : Metrics :=
  if y_true = [] then
    ⟨.finite 0, .finite 0, .finite 0, .finite 0⟩
  else
    let acc := match orc.accuracy_score y_true y_pred with
      | none => PyFloat.finite 0
      | some a => a
    match orc.prfsMacro y_true y_pred with
    | none => ⟨safe_round acc, safe_round (.finite 0), safe_round (.finite 0),
               safe_round (.finite 0)⟩
    | some (prec, rec, f1) =>
      ⟨safe_round acc, safe_round prec, safe_round rec, safe_round f1⟩

/-- One row of the per-intent report. -/
structure IntentRow where
  intent : String
  precision : PyFloat
  recallVal : PyFloat
  f1 : PyFloat
  support : Nat
deriving Repr, DecidableEq

/-- Model of `per_intent_report(y_true, y_pred)`. -/
def per_intent_report (orc : MetricsOracle) (y_true y_pred : List String) :
    List IntentRow :=
  let labels := pySortedSet (y_true ++ y_pred)
  if labels = [] then []
  else
    match orc.prfsPerLabel y_true y_pred labels with
    | none => labels.map (fun l => ⟨l, .finite 0, .finite 0, .finite 0, 0⟩)
    | some f => labels.map (fun l =>
        let (p, r, f1, s) := f l
        ⟨l, safe_round p, safe_round r, safe_round f1, s⟩)

/-- The evaluation report fields used by the properties below. -/
structure EvalReport where
  metrics : Metrics
  train_samples : Nat
  test_samples : Nat
  per_intent : List IntentRow

/-- The train/test index split of `run_evaluation` (lines 117–139):
`split` is the `sklearn.model_selection.train_test_split` result on
`arange(n)` (`none` models a raised exception, e.g. for degenerate
`train_size`, upon which the code falls back to a positional split), and a
final fix-up moves one training example to test when the test side came out
empty.  The positional cut `int(n * train_frac)` is modelled by exact
rational truncation `n * pct / 100`. -/
def splitIndices (split : Option (List Nat × List Nat)) (n : Nat) (pct : Nat) :
    List Nat × List Nat :=
  let tt := match split with
    | some tt => tt
    | none =>
      let split_at := n * pct / 100
      ((List.range n).take split_at, (List.range n).drop split_at)
  if tt.2 = [] then
    if tt.1 ≠ [] then (tt.1.dropLast, [tt.1.getLast?.getD 0])
    else ([], [0])
  else tt

/-- Model of `run_evaluation` (route `/evaluation/run`).  `seed` and the stratify
choice only influence the `split` oracle; the confusion matrix and the
per-item details of the response are omitted (no property below mentions
them). -/
def run_evaluation (st : NluState) (rasaExternal : String → Option (String × ℚ))
    (split : Option (List Nat × List Nat)) (orc : MetricsOracle)
    (texts true_intents : List String) (train_pct : Int)
    (model_id : Option String) (strict_mode : Bool) : Except HttpError EvalReport :=
  if texts = [] ∨ true_intents = [] ∨ texts.length ≠ true_intents.length then
    .error ⟨400, "texts and true_intents must be same-length non-empty lists"⟩
  else
    let n := texts.length
    let pct : Nat := (max 0 (min 100 train_pct)).toNat
    let ti := splitIndices split n pct
    let X_test := ti.2.map (fun i => texts.getD i "")
    let y_test := ti.2.map (fun i => true_intents.getD i "")
    match predict_batch st rasaExternal X_test (some (pyOrOptStr model_id "spacy"))
        strict_mode with
    | .error e => .error e
    | .ok preds =>
      let predicted_intents := preds.map (fun p => pyNormLabel p.intent)
      let true_test := y_test.map pyNormLabel
      .ok { metrics := metrics_summary orc true_test predicted_intents
            train_samples := ti.1.length
            test_samples := ti.2.length
            per_intent := per_intent_report orc true_test predicted_intents }

/-! ## Theorems -/

/-! ### C1: the Reconciler output has no same-label pair with IoU ≥ 0.8 -/

/-- The pairwise property claimed for the Reconciler output: two spans with
the same (case-insensitively compared) label overlap with IoU < 0.8. -/
def overlapOk (a b : Entity) : Prop :=
  pyLower a.label = pyLower b.label → iou a b < 4 / 5

theorem iou_comm (a b : Entity) : iou a b = iou b a := by
  unfold iou
  rcases a.start with _ | sa <;> rcases a.stop with _ | ea <;>
    rcases b.start with _ | sb <;> rcases b.stop with _ | eb <;> try rfl
  dsimp only
  have h1 : min ea eb = min eb ea := min_comm _ _
  have h2 : max sa sb = max sb sa := max_comm _ _
  have h3 : (ea - sa) + (eb - sb) = (eb - sb) + (ea - sa) := add_comm _ _
  rw [h1, h2, h3]

theorem greedyStep_pairwise {acc : List Entity} {e : Entity}
    (h : acc.Pairwise overlapOk) : (greedyStep acc e).Pairwise overlapOk := by
  unfold greedyStep
  split
  · exact h
  · rename_i hany
    rw [Bool.not_eq_true, List.any_eq_false] at hany
    rw [List.pairwise_append]
    refine ⟨h, List.pairwise_singleton _ _, ?_⟩
    intro f hf b hb
    rw [List.mem_singleton] at hb
    subst hb
    intro hlab
    have hnot := hany f hf
    simp only [Bool.and_eq_true, decide_eq_true_eq, not_and] at hnot
    have := hnot hlab.symm
    rw [iou_comm]
    exact lt_of_not_le this

theorem greedyPass_pairwise (l acc : List Entity) (h : acc.Pairwise overlapOk) :
    (List.foldl greedyStep acc l).Pairwise overlapOk := by
  induction l generalizing acc with
  | nil => exact h
  | cons e rest ih =>
    exact ih _ (greedyStep_pairwise h)

/-- C1: for every input text and every list of candidate entity spans, no
two distinct spans in the list returned by `_deduplicate_entities` that
share the same (case-insensitively compared) label have intersection-over-
union ≥ 0.8: the greedy second pass only accepts a span after checking it
against every already-accepted same-label span. -/
theorem deduplicate_entities_no_heavy_overlap (source_text : String)
    (entities : List Entity) :
    (deduplicate_entities source_text entities).Pairwise overlapOk := by
  unfold deduplicate_entities
  split
  · exact List.Pairwise.nil
  · exact greedyPass_pairwise _ _ List.Pairwise.nil

/-! ### C4: monotonicity of `_token_offsets`

The claim fails as stated: when a token does not occur at or after the
cursor, `_token_offsets` falls back to `text_lower.find(token_lower)` from
the *beginning* of the text, which can place a token before the end of its
predecessor.  With `text = "ab"` and `tokens = ["ab", "ab"]` the second
token is not found at or after position 2, the fallback returns 0, and the
offsets are `[(0, 2), (0, 2)]`.  The amended statement restricts the claim
to runs in which every forward search succeeds (no fallback taken). -/

theorem token_offsets_not_separated_counterexample :
    ¬ offsetsSeparated
        (token_offsets ['a', 'b'] [['a', 'b'], ['a', 'b']]) := by
  have h : token_offsets ['a', 'b'] [['a', 'b'], ['a', 'b']] = [(0, 2), (0, 2)] := by
    decide
  intro hc
  rw [offsetsSeparated, h, List.chain'_cons] at hc
  exact absurd hc.1 (by decide)

theorem pyFind_ge_start {hay sub : List Char} {start i : Nat}
    (h : pyFind hay sub start = some i) : start ≤ i := by
  unfold pyFind at h
  have hp := List.find?_some h
  simp only [Bool.and_eq_true, decide_eq_true_eq] at hp
  exact hp.1

theorem tokenIdx_of_found {textLower tl : List Char} {cursor i : Nat}
    (h : pyFind textLower tl cursor = some i) : tokenIdx textLower tl cursor = i := by
  unfold tokenIdx
  rw [h]

theorem tokenOffsetsGo_separated (textLower : List Char) :
    ∀ (tokens : List (List Char)) (cursor : Nat),
      forwardSearchOk textLower tokens cursor = true →
      (∀ p ∈ tokenOffsetsGo textLower tokens cursor, cursor ≤ p.1 ∧ p.1 ≤ p.2) ∧
        offsetsSeparated (tokenOffsetsGo textLower tokens cursor) := by
  intro tokens
  induction tokens with
  | nil =>
    intro cursor _
    exact ⟨by simp [tokenOffsetsGo], by simp [tokenOffsetsGo, offsetsSeparated]⟩
  | cons tok rest ih =>
    intro cursor h
    unfold forwardSearchOk at h
    cases hf : pyFind textLower (lowerChars tok) cursor with
    | none => rw [hf] at h; exact absurd h (by simp)
    | some i =>
      rw [hf] at h
      have hci : cursor ≤ i := pyFind_ge_start hf
      have ihr := ih (max (i + tok.length) (cursor + tok.length)) h
      simp only [tokenOffsetsGo, tokenIdx_of_found hf]
      constructor
      · intro p hp
        rcases List.mem_cons.1 hp with hp | hp
        · subst hp
          exact ⟨hci, Nat.le_add_right _ _⟩
        · have := (ihr.1 p hp).1
          refine ⟨le_trans ?_ this, (ihr.1 p hp).2⟩
          exact le_trans (Nat.le_add_right cursor tok.length) (le_max_right _ _)
      · rw [offsetsSeparated, List.chain'_cons']
        refine ⟨?_, ihr.2⟩
        intro q hq
        have hqmem := List.mem_of_mem_head? hq
        have := (ihr.1 q hqmem).1
        exact le_trans (le_max_left _ _) this

/-- C4 (amended): when every token of the list is found by the
case-insensitive forward search at or after the current cursor (so that
`_token_offsets` never takes either fallback branch), the returned offset
pairs are well-formed and consecutive pairs never overlap: the end offset
of each token is at most the start offset of the next.  (As stated over
*all* inputs the claim is false; see the counterexample.) -/
theorem token_offsets_separated_of_forward (text : List Char)
    (tokens : List (List Char))
    (h : forwardSearchOk (lowerChars text) tokens 0 = true) :
    offsetsSeparated (token_offsets text tokens) ∧
      ∀ p ∈ token_offsets text tokens, p.1 ≤ p.2 := by
  have hmain := tokenOffsetsGo_separated (lowerChars text) tokens 0 h
  exact ⟨hmain.2, fun p hp => (hmain.1 p hp).2⟩

theorem token_offsets_separated_of_forward_witness :
    forwardSearchOk (lowerChars ['a', ' ', 'b']) [['a'], ['b']] 0 = true ∧
      offsetsSeparated (token_offsets ['a', ' ', 'b'] [['a'], ['b']]) :=
  ⟨by decide, (token_offsets_separated_of_forward ['a', ' ', 'b'] [['a'], ['b']]
      (by decide)).1⟩

/-! ### C8: BIO → span conversion

The claim as frozen quantifies over *every* token list and BIO tag list.
The source indexes `offsets[i]` (and `offsets[j]` in the continuation loop),
so when the tag list is longer than the token list and a `B-` or matching
`I-` tag sits past the last token, `_bio_to_spans` raises `IndexError`
instead of decoding a span — refuted below at `tokens=["a"]`,
`labels=["O","B-X"]`.  The amended statement restricts to tag lists no
longer than the token list (every caller supplies exactly one tag per
token), where the decoding succeeds and yields one span per `B-` tag. -/

/-- Counterexample to C8 as stated: one `B-` tag, but the tag list is
longer than the token list, so the source raises `IndexError` (modelled as
`.error`) rather than opening a span for it. -/
theorem bio_to_spans_raises_counterexample :
    bio_to_spans [['a']] ["O", "B-X"] ['a'] = .error "list index out of range" := by
  rfl

theorem pyStartsWith_I_not_B (core : String) :
    pyStartsWith ("I-" ++ core) "B-" = false := by
  unfold pyStartsWith
  rw [show ("I-" ++ core).toList = 'I' :: '-' :: core.toList from rfl]
  rfl

theorem tokenOffsetsGo_length (textLower : List Char) :
    ∀ (tokens : List (List Char)) (cursor : Nat),
      (tokenOffsetsGo textLower tokens cursor).length = tokens.length := by
  intro tokens
  induction tokens with
  | nil => intro cursor; rfl
  | cons tok rest ih =>
    intro cursor
    simp only [tokenOffsetsGo, List.length_cons, ih]

theorem token_offsets_length (text : List Char) (tokens : List (List Char)) :
    (token_offsets text tokens).length = tokens.length :=
  tokenOffsetsGo_length (lowerChars text) tokens 0

/-- When every continuation access stays inside the offset list, `bioExtend`
succeeds; the run it consumes preserves the position invariant, never grows
the remainder, and only removes `I-` tags (invisible to any predicate false
on them). -/
theorem bioExtend_ok (offsets : List (Nat × Nat)) (core : String)
    (p : String → Bool) (hp : p ("I-" ++ core) = false) :
    ∀ (ls : List String) (j e : Nat), j + ls.length ≤ offsets.length →
      ∃ j2 e2 rest2, bioExtend offsets core ls j e = .ok (j2, e2, rest2) ∧
        j2 + rest2.length = j + ls.length ∧
        rest2.length ≤ ls.length ∧
        rest2.countP p = ls.countP p := by
  intro ls
  induction ls with
  | nil =>
    intro j e _
    exact ⟨j, e, [], rfl, rfl, Nat.le_refl _, rfl⟩
  | cons tag rest ih =>
    intro j e hle
    unfold bioExtend
    split
    · rename_i htag
      have hj : j < offsets.length := by
        simp only [List.length_cons] at hle
        omega
      cases hoff : offsets.get? j with
      | none => exact absurd (List.get?_eq_none.1 hoff) (Nat.not_le.2 hj)
      | some off =>
        have hle2 : (j + 1) + rest.length ≤ offsets.length := by
          simp only [List.length_cons] at hle
          omega
        obtain ⟨j2, e2, rest2, hok, hsum, hlen2, hcount⟩ := ih (j + 1) off.2 hle2
        refine ⟨j2, e2, rest2, hok, ?_, ?_, ?_⟩
        · simp only [List.length_cons]
          omega
        · simp only [List.length_cons]
          omega
        · rw [hcount, List.countP_cons, htag, hp]
          simp
    · exact ⟨j, e, tag :: rest, rfl, rfl, Nat.le_refl _, rfl⟩

/-- With enough fuel and all positions inside the offset list, the outer
loop succeeds and produces exactly one span per `B-` tag. -/
theorem bioSpansGo_ok_length (offsets : List (Nat × Nat)) (text : List Char) :
    ∀ (fuel : Nat) (ls : List String) (i : Nat),
      ls.length ≤ fuel → i + ls.length ≤ offsets.length →
      ∃ spans, bioSpansGo offsets text fuel ls i = .ok spans ∧
        spans.length = ls.countP (fun t => pyStartsWith t "B-") := by
  intro fuel
  induction fuel with
  | zero =>
    intro ls i hle _
    have hnil : ls = [] := List.length_eq_zero.1 (Nat.le_zero.1 hle)
    subst hnil
    exact ⟨[], rfl, rfl⟩
  | succ fuel ih =>
    intro ls i hle hrange
    cases ls with
    | nil => exact ⟨[], rfl, rfl⟩
    | cons tag rest =>
      have hrest : rest.length ≤ fuel := Nat.succ_le_succ_iff.1 hle
      have hrange1 : (i + 1) + rest.length ≤ offsets.length := by
        simp only [List.length_cons] at hrange
        omega
      simp only [bioSpansGo]
      split
      · rename_i hTag
        obtain ⟨spans, hok, hcnt⟩ := ih rest (i + 1) hrest hrange1
        refine ⟨spans, hok, ?_⟩
        rw [hcnt, List.countP_cons]
        have hfalse : pyStartsWith tag "B-" = false := by
          rcases hTag with h | h <;> rw [h] <;> rfl
        rw [hfalse]
        simp
      · split
        · rename_i hTag hB
          have hi : i < offsets.length := by
            simp only [List.length_cons] at hrange
            omega
          cases hoff : offsets.get? i with
          | none => exact absurd (List.get?_eq_none.1 hoff) (Nat.not_le.2 hi)
          | some off =>
            dsimp only
            obtain ⟨j2, e2, rest2, hok, hsum, hlen2, hcount⟩ :=
              bioExtend_ok offsets (tag.drop 2) (fun t => pyStartsWith t "B-")
                (pyStartsWith_I_not_B _) rest (i + 1) off.2 hrange1
            rw [hok]
            dsimp only
            have hr2fuel : rest2.length ≤ fuel := Nat.le_trans hlen2 hrest
            have hr2range : j2 + rest2.length ≤ offsets.length := by
              rw [hsum]
              exact hrange1
            obtain ⟨spans, hok2, hcnt2⟩ := ih rest2 j2 hr2fuel hr2range
            rw [hok2]
            dsimp only
            refine ⟨_, rfl, ?_⟩
            simp only [List.length_cons]
            rw [hcnt2, hcount, List.countP_cons, hB]
            simp
        · rename_i hTag hB
          obtain ⟨spans, hok, hcnt⟩ := ih rest (i + 1) hrest hrange1
          refine ⟨spans, hok, ?_⟩
          rw [hcnt, List.countP_cons]
          rw [Bool.not_eq_true] at hB
          rw [hB]
          simp

/-- C8 (amended): (a) for non-empty token and tag lists with at most one
tag per token (`labels.length ≤ tokens.length` — every caller supplies
exactly one tag per token), `_bio_to_spans` returns without raising and
produces exactly one span per `B-` tag: a `B-LABEL` tag opens a span, the
contiguous following `I-LABEL` tags merely extend it (the inner loop
consumes them without opening or counting), and any other tag closes it.
When instead a `B-` tag or a matching continuation `I-` tag sits past the
last token, the `offsets[...]` lookup raises `IndexError` (see the
counterexample), so the claim's unrestricted universal form fails.
(b) In particular, the tags `["O","B-CITY","I-CITY","O"]` over the tokens
`["go","new","york","now"]` of `"go new york now"` convert to exactly one
span labelled `"city"` whose text is `"new york"`, covering tokens 1–2
(character offsets 3 to 11). -/
theorem bio_to_spans_decoding :
    (∀ (tokens : List (List Char)) (labels : List String) (text : List Char),
      tokens ≠ [] → labels ≠ [] → labels.length ≤ tokens.length →
      ∃ spans, bio_to_spans tokens labels text = .ok spans ∧
        spans.length = labels.countP (fun t => pyStartsWith t "B-")) ∧
    bio_to_spans
        [['g', 'o'], ['n', 'e', 'w'], ['y', 'o', 'r', 'k'], ['n', 'o', 'w']]
        ["O", "B-CITY", "I-CITY", "O"]
        ("go new york now".toList)
      = .ok [{ text := "new york".toList, label := "city", start := 3, stop := 11,
               score := mkRat 9 10 }] := by
  constructor
  · intro tokens labels text htok hlab hlen
    unfold bio_to_spans
    rw [if_neg (by push_neg; exact ⟨htok, hlab⟩)]
    refine bioSpansGo_ok_length _ _ labels.length labels 0 (Nat.le_refl _) ?_
    rw [token_offsets_length]
    simpa using hlen
  · rfl

theorem bio_to_spans_decoding_witness :
    ∃ spans, bio_to_spans
        [['g', 'o'], ['n', 'e', 'w'], ['y', 'o', 'r', 'k'], ['n', 'o', 'w']]
        ["O", "B-CITY", "I-CITY", "O"]
        ("go new york now".toList) = .ok spans ∧
      spans.length = (["O", "B-CITY", "I-CITY", "O"] : List String).countP
          (fun t => pyStartsWith t "B-") :=
  bio_to_spans_decoding.1
    [['g', 'o'], ['n', 'e', 'w'], ['y', 'o', 'r', 'k'], ['n', 'o', 'w']]
    ["O", "B-CITY", "I-CITY", "O"] ("go new york now".toList)
    (by decide) (by decide) (by decide)

/-! ### C2: `predict_batch` is total over the input list -/

/-- C2: for every engine state, external-Rasa oracle, engine id and
non-empty text list, `predict_batch` succeeds with exactly one prediction
entry per input text, and any item whose (non-blank) single-text `predict`
call raises degrades to an `intent="error"`, `confidence=0` entry rather
than aborting the batch. -/
theorem predict_batch_total (st : NluState) (rasaExternal : String → Option (String × ℚ))
    (texts : List String) (model_id : Option String) (strict : Bool)
    (h : texts ≠ []) :
    ∃ rs, predict_batch st rasaExternal texts model_id strict = .ok rs ∧
      rs.length = texts.length ∧
      ∀ i, i < texts.length →
        (pyStrip (texts.getD i "") ≠ "" →
          ∀ e, predict st rasaExternal (pyStrip (texts.getD i ""))
              (some (pyLower (pyOrOptStr model_id "spacy"))) = .error e →
            (rs.getD i ⟨"", "", 0, none⟩).intent = "error" ∧
              (rs.getD i ⟨"", "", 0, none⟩).confidence = 0) := by
  unfold predict_batch
  rw [if_neg h]
  refine ⟨_, rfl, List.length_map _ _, ?_⟩
  intro i hi hblank e he
  have hget : (texts.map (batchItem st rasaExternal (pyLower (pyOrOptStr model_id "spacy")))).getD i ⟨"", "", 0, none⟩
      = batchItem st rasaExternal (pyLower (pyOrOptStr model_id "spacy")) (texts.getD i "") := by
    rw [List.getD_eq_getElem?_getD, List.getElem?_map, List.getD_eq_getElem?_getD]
    rw [List.getElem?_eq_getElem hi]
    rfl
  rw [hget]
  unfold batchItem
  rw [if_neg hblank, he]
  exact ⟨rfl, rfl⟩

theorem predict_batch_total_witness :
    ∃ rs, predict_batch initialState (fun _ => none) ["hi"] none false = .ok rs ∧
      rs.length = (["hi"] : List String).length ∧
      ∀ i, i < (["hi"] : List String).length →
        (pyStrip ((["hi"] : List String).getD i "") ≠ "" →
          ∀ e, predict initialState (fun _ => none)
              (pyStrip ((["hi"] : List String).getD i ""))
              (some (pyLower (pyOrOptStr none "spacy"))) = .error e →
            (rs.getD i ⟨"", "", 0, none⟩).intent = "error" ∧
              (rs.getD i ⟨"", "", 0, none⟩).confidence = 0) :=
  predict_batch_total initialState (fun _ => none) ["hi"] none false (by decide)

/-! ### C10: blank items in a batch degrade to "unknown", not "error" -/

/-- C10: a batch item that is blank after trimming yields the entry
`{text: "", intent: "unknown", confidence: 0}` — the single-text `predict`
operation is not consulted for it (the entry does not depend on the engine
state at all) and it is not an error entry — whereas the single `predict`
operation rejects the same blank text with a 400 "Text is required"
error. -/
theorem predict_batch_blank_item (st : NluState)
    (rasaExternal : String → Option (String × ℚ)) (texts : List String)
    (model_id : Option String) (strict : Bool) (i : Nat)
    (hi : i < texts.length) (hblank : pyStrip (texts.getD i "") = "") :
    (∃ rs, predict_batch st rasaExternal texts model_id strict = .ok rs ∧
        rs.getD i ⟨"x", "x", 1, none⟩
          = { text := "", intent := "unknown", confidence := 0, error := none }) ∧
      predict st rasaExternal (texts.getD i "") model_id
        = .error ⟨400, "Text is required"⟩ := by
  constructor
  · have hne : texts ≠ [] := by
      intro hcon
      rw [hcon] at hi
      exact absurd hi (by simp)
    unfold predict_batch
    rw [if_neg hne]
    refine ⟨_, rfl, ?_⟩
    have hget : (texts.map (batchItem st rasaExternal (pyLower (pyOrOptStr model_id "spacy")))).getD i ⟨"x", "x", 1, none⟩
        = batchItem st rasaExternal (pyLower (pyOrOptStr model_id "spacy")) (texts.getD i "") := by
      rw [List.getD_eq_getElem?_getD, List.getElem?_map, List.getD_eq_getElem?_getD]
      rw [List.getElem?_eq_getElem hi]
      rfl
    rw [hget]
    unfold batchItem
    rw [if_pos hblank, hblank]
  · unfold predict
    rw [if_pos hblank]

theorem predict_batch_blank_item_witness :
    ((0 : Nat) < (["  ", "hi"] : List String).length ∧
        pyStrip ((["  ", "hi"] : List String).getD 0 "") = "") ∧
      (∃ rs, predict_batch initialState (fun _ => none) ["  ", "hi"] none false = .ok rs ∧
          rs.getD 0 ⟨"x", "x", 1, none⟩
            = { text := "", intent := "unknown", confidence := 0, error := none }) ∧
        predict initialState (fun _ => none) ((["  ", "hi"] : List String).getD 0 "") none
          = .error ⟨400, "Text is required"⟩ :=
  ⟨⟨by decide, by decide⟩,
    predict_batch_blank_item initialState (fun _ => none) ["  ", "hi"] none false 0
      (by decide) (by decide)⟩

/-! ### C9: training one engine leaves the other engines' slots unchanged -/

/-- C9: for every starting state, payload and fitting oracle, training the
spaCy slot leaves the rasa-lite and NERT models/labels and the CRF state
unchanged; training the rasa-lite slot leaves the spaCy and NERT slots and
the CRF state unchanged; and training the NERT slot leaves the spaCy and
rasa-lite intent models and labels unchanged — on every path, including
validation failures and fit errors (engines are independent slots). -/
theorem train_routes_engine_isolation (st : NluState)
    (fitS : List String → List String → Int → Except String (String → Option (List ℚ)))
    (fitR fitN : List String → List String → Except String SkModel)
    (crfFit : List NertRecord → Option CrfModel)
    (texts labels : List String) (epochs : Option Int) (records : List NertRecord) :
    ((train_spacy_intent fitS st texts labels epochs).1.rasa_intent_model
        = st.rasa_intent_model ∧
      (train_spacy_intent fitS st texts labels epochs).1.rasa_intent_labels
        = st.rasa_intent_labels ∧
      (train_spacy_intent fitS st texts labels epochs).1.nert_intent_model
        = st.nert_intent_model ∧
      (train_spacy_intent fitS st texts labels epochs).1.nert_intent_labels
        = st.nert_intent_labels ∧
      (train_spacy_intent fitS st texts labels epochs).1.crf_model = st.crf_model ∧
      (train_spacy_intent fitS st texts labels epochs).1.crf_loaded = st.crf_loaded) ∧
    ((train_rasa_intent fitR st texts labels).1.spacy_textcat = st.spacy_textcat ∧
      (train_rasa_intent fitR st texts labels).1.nert_intent_model
        = st.nert_intent_model ∧
      (train_rasa_intent fitR st texts labels).1.nert_intent_labels
        = st.nert_intent_labels ∧
      (train_rasa_intent fitR st texts labels).1.crf_model = st.crf_model ∧
      (train_rasa_intent fitR st texts labels).1.crf_loaded = st.crf_loaded) ∧
    ((train_nert fitN crfFit st records).1.spacy_textcat = st.spacy_textcat ∧
      (train_nert fitN crfFit st records).1.rasa_intent_model = st.rasa_intent_model ∧
      (train_nert fitN crfFit st records).1.rasa_intent_labels
        = st.rasa_intent_labels) := by
  refine ⟨?_, ?_, ?_⟩
  · unfold train_spacy_intent
    dsimp only
    repeat' split
    all_goals and_intros <;> (repeat' split) <;> rfl
  · unfold train_rasa_intent
    dsimp only
    repeat' split
    all_goals and_intros <;> (repeat' split) <;> rfl
  · unfold train_nert
    dsimp only
    repeat' split
    all_goals and_intros <;> (repeat' split) <;> rfl

/-! ### C3: training with a single distinct label yields confidence 1.0 -/

theorem dedup_const (L : String) (l : List String) (hne : l ≠ [])
    (hall : ∀ x ∈ l, x = L) : l.dedup = [L] := by
  induction l with
  | nil => exact absurd rfl hne
  | cons x t ih =>
    have hx : x = L := hall x (List.mem_cons_self x t)
    subst hx
    by_cases ht : t = []
    · subst ht; simp
    · have hd : t.dedup = [x] := ih ht (fun z hz => hall z (List.mem_cons_of_mem x hz))
      obtain ⟨z, t', rfl⟩ := List.exists_cons_of_ne_nil ht
      have hz : z = x := hall z (by simp)
      subst hz
      rw [List.dedup_cons_of_mem (List.mem_cons_self z t'), hd]

theorem pySortedSet_const (L : String) (l : List String) (hne : l ≠ [])
    (hall : ∀ x ∈ l, x = L) : pySortedSet l = [L] := by
  unfold pySortedSet
  rw [dedup_const L l hne hall]
  rfl

theorem predict_with_confidence_rasa_majority (L t : String) (d : ℚ) :
    predict_with_confidence (majorityClassifierRasa L) t d = (L, 1) := by
  unfold predict_with_confidence majorityClassifierRasa pyIndexOf
  simp [List.findIdx?_cons]

theorem predict_with_confidence_nert_majority (L t : String) (d : ℚ) :
    predict_with_confidence (majorityClassifierNert L) t d = (L, 1) := by
  unfold predict_with_confidence majorityClassifierNert
  simp

theorem train_rasa_single_label (st : NluState)
    (fitR : List String → List String → Except String SkModel)
    (texts labels : List String) (L : String)
    (hne : texts ≠ []) (hlen : texts.length = labels.length)
    (hall : ∀ l ∈ labels, pyNormLabel l = L) :
    (train_rasa_intent fitR st texts labels).1.rasa_intent_model
      = some (majorityClassifierRasa L) := by
  have hlne : labels ≠ [] := by
    intro hcon
    rw [hcon] at hlen
    exact hne (List.length_eq_zero.1 hlen)
  have hproc : pySortedSet (labels.map pyNormLabel) = [L] := by
    refine pySortedSet_const L _ (by simpa using hlne) ?_
    intro x hx
    obtain ⟨y, hy, rfl⟩ := List.mem_map.1 hx
    exact hall y hy
  unfold train_rasa_intent train_text_classifier
  rw [if_neg (by push_neg; exact ⟨hne, hlne, hlen⟩)]
  rw [if_neg (by push_neg; exact ⟨hne, hlne, hlen⟩)]
  dsimp only
  rw [hproc]
  simp

theorem train_nert_single_label (st : NluState)
    (fitN : List String → List String → Except String SkModel)
    (crfFit : List NertRecord → Option CrfModel)
    (records : List NertRecord) (L : String)
    (hne : records ≠ []) (hall : ∀ r ∈ records, pyNormLabel r.intent = L) :
    (train_nert fitN crfFit st records).1.nert_intent_model
      = some (majorityClassifierNert L) := by
  have hproc : pySortedSet (records.map (fun r => pyNormLabel r.intent)) = [L] := by
    refine pySortedSet_const L _ (by simpa using hne) ?_
    intro x hx
    obtain ⟨r, hr, rfl⟩ := List.mem_map.1 hx
    exact hall r hr
  unfold train_nert
  rw [if_neg hne]
  dsimp only
  rw [hproc]
  rw [if_neg (by simp), if_pos (by simp)]
  dsimp only
  repeat' split <;> rfl

theorem train_spacy_single_label (st : NluState)
    (fitS : List String → List String → Int → Except String (String → Option (List ℚ)))
    (texts labels : List String) (epochs : Option Int) (L : String)
    (score : String → Option (List ℚ))
    (hne : texts ≠ []) (hlen : texts.length = labels.length)
    (hall : ∀ l ∈ labels, pyNormLabel l = L)
    (hfit : ∀ ep, fitS texts labels ep = .ok score) :
    (train_spacy_intent fitS st texts labels epochs).1.spacy_textcat
      = some ⟨[L], score⟩ := by
  have hlne : labels ≠ [] := by
    intro hcon
    rw [hcon] at hlen
    exact hne (List.length_eq_zero.1 hlen)
  have hproc : pySortedSet (labels.map pyNormLabel) = [L] := by
    refine pySortedSet_const L _ (by simpa using hlne) ?_
    intro x hx
    obtain ⟨y, hy, rfl⟩ := List.mem_map.1 hx
    exact hall y hy
  unfold train_spacy_intent
  rw [if_neg (by push_neg; exact ⟨hne, hlne, hlen⟩)]
  dsimp only
  rw [hfit, hproc]

theorem predict_rasa_of_majority (st : NluState)
    (rasaExternal : String → Option (String × ℚ)) (L text : String)
    (hm : st.rasa_intent_model = some (majorityClassifierRasa L))
    (ht : pyStrip text ≠ "") :
    predict st rasaExternal text (some "rasa") = .ok (L, 1) := by
  unfold predict
  rw [if_neg ht]
  have hengine : pyLower (pyOrOptStr (some "rasa") "spacy") = "rasa" := by decide
  rw [hengine]
  dsimp only
  rw [if_pos rfl, hm]
  dsimp only
  rw [predict_with_confidence_rasa_majority]
  rfl

theorem predict_nert_of_majority (st : NluState)
    (rasaExternal : String → Option (String × ℚ)) (L text : String)
    (hm : st.nert_intent_model = some (majorityClassifierNert L))
    (ht : pyStrip text ≠ "") :
    predict st rasaExternal text (some "nert") = .ok (L, 1) := by
  unfold predict
  rw [if_neg ht]
  have hengine : pyLower (pyOrOptStr (some "nert") "spacy") = "nert" := by decide
  rw [hengine]
  dsimp only
  rw [if_neg (by decide), if_pos rfl, hm]
  dsimp only
  rw [predict_with_confidence_nert_majority]
  rfl

theorem predict_spacy_of_single_label (st : NluState)
    (rasaExternal : String → Option (String × ℚ)) (L text : String)
    (score : String → Option (List ℚ))
    (hm : st.spacy_textcat = some ⟨[L], score⟩)
    (hscore : ∀ t, ∃ ds, score t = some ds ∧ ds.length = 1 ∧ ds.sum = 1)
    (ht : pyStrip text ≠ "") :
    predict st rasaExternal text (some "spacy") = .ok (L, 1) := by
  unfold predict
  rw [if_neg ht]
  have hengine : pyLower (pyOrOptStr (some "spacy") "spacy") = "spacy" := by decide
  rw [hengine]
  dsimp only
  rw [if_neg (by decide), if_neg (by decide), if_neg (by decide), hm]
  obtain ⟨ds, hds, hlen1, hsum⟩ := hscore (pyStrip text)
  dsimp only
  rw [hds]
  obtain ⟨q, rfl⟩ := List.length_eq_one.1 hlen1
  have hq : q = 1 := by simpa using hsum
  subst hq
  simp [argmaxIdx, List.findIdx?_cons, wrap500]

/-- C3: for each of the three engines, after a successful train call whose
label list has exactly one distinct (normalised) label `L`, every subsequent
predict call for that engine on any non-blank text returns `L` as the intent
with confidence exactly 1.0.  For rasa-lite and NERT-lite this comes from
the installed majority classifier; for spaCy it additionally assumes the
library contract that the trained text categorizer returns one normalised
score per label (a probability distribution, which over a single label is
exactly `[1.0]`). -/
theorem single_label_training_confidence_one (st : NluState)
    (rasaExternal : String → Option (String × ℚ)) (L : String)
    (fitR fitN : List String → List String → Except String SkModel)
    (crfFit : List NertRecord → Option CrfModel)
    (fitS : List String → List String → Int → Except String (String → Option (List ℚ)))
    (textsR labelsR : List String) (records : List NertRecord)
    (textsS labelsS : List String) (epochs : Option Int)
    (score : String → Option (List ℚ))
    (hRne : textsR ≠ []) (hRlen : textsR.length = labelsR.length)
    (hRlab : ∀ l ∈ labelsR, pyNormLabel l = L)
    (hNne : records ≠ []) (hNlab : ∀ r ∈ records, pyNormLabel r.intent = L)
    (hSne : textsS ≠ []) (hSlen : textsS.length = labelsS.length)
    (hSlab : ∀ l ∈ labelsS, pyNormLabel l = L)
    (hSfit : ∀ ep, fitS textsS labelsS ep = .ok score)
    (hscore : ∀ t, ∃ ds, score t = some ds ∧ ds.length = 1 ∧ ds.sum = 1)
    (text : String) (ht : pyStrip text ≠ "") :
    predict (train_rasa_intent fitR st textsR labelsR).1 rasaExternal text (some "rasa")
        = .ok (L, 1) ∧
      predict (train_nert fitN crfFit st records).1 rasaExternal text (some "nert")
        = .ok (L, 1) ∧
      predict (train_spacy_intent fitS st textsS labelsS epochs).1 rasaExternal text
          (some "spacy")
        = .ok (L, 1) := by
  refine ⟨?_, ?_, ?_⟩
  · exact predict_rasa_of_majority _ _ _ _
      (train_rasa_single_label st fitR textsR labelsR L hRne hRlen hRlab) ht
  · exact predict_nert_of_majority _ _ _ _
      (train_nert_single_label st fitN crfFit records L hNne hNlab) ht
  · exact predict_spacy_of_single_label _ _ _ _ _
      (train_spacy_single_label st fitS textsS labelsS epochs L score hSne hSlen hSlab hSfit)
      hscore ht

theorem single_label_training_confidence_one_witness :
    predict (train_rasa_intent (fun _ _ => .error "unused") initialState ["hi"]
        ["greet"]).1 (fun _ => none) "hello" (some "rasa") = .ok ("greet", 1) ∧
      predict (train_nert (fun _ _ => .error "unused") (fun _ => none) initialState
          [⟨"hi", "greet", []⟩]).1 (fun _ => none) "hello" (some "nert")
        = .ok ("greet", 1) ∧
      predict (train_spacy_intent (fun _ _ _ => .ok (fun _ => some [1])) initialState
          ["hi"] ["greet"] none).1 (fun _ => none) "hello" (some "spacy")
        = .ok ("greet", 1) :=
  single_label_training_confidence_one initialState (fun _ => none) "greet"
    (fun _ _ => .error "unused") (fun _ _ => .error "unused") (fun _ => none)
    (fun _ _ _ => .ok (fun _ => some [1]))
    ["hi"] ["greet"] [⟨"hi", "greet", []⟩] ["hi"] ["greet"] none (fun _ => some [1])
    (by decide) (by decide) (by decide) (by decide) (by decide)
    (by decide) (by decide) (by decide) (fun ep => rfl)
    (fun t => ⟨[1], rfl, rfl, by simp⟩) "hello" (by decide)

/-! ### C5: `suggest` with ground truth -/

/-- The engine string `suggest` hands to `predict_batch`
(`payload.model_id or "spacy"`, lowered again inside `predict_batch`). -/
def suggestEngine (model_id : Option String) : String :=
  pyLower (pyOrOptStr (some (pyOrOptStr model_id "spacy")) "spacy")

/-- The batch entries `suggest` filters (the `.ok` payload of its
`predict_batch` call). -/
def suggestBatch (st : NluState) (rasaExternal : String → Option (String × ℚ))
    (texts : List String) (model_id : Option String) : List BatchEntry :=
  texts.map (batchItem st rasaExternal (suggestEngine model_id))

/-- The inclusion condition of the ground-truth mode: wrong prediction, or
confidence at most the threshold. -/
def suggestKeep (acts : List String) (thr : ℚ) (ip : Nat × BatchEntry) : Bool :=
  decide (pyNormLabel ip.2.intent ≠ pyNormLabel (acts.getD ip.1 "")) ||
    decide (ip.2.confidence ≤ thr)

theorem insertReview_perm (x : ReviewItem) (l : List ReviewItem) :
    (insertReview x l).Perm (x :: l) := by
  induction l with
  | nil => exact List.Perm.refl _
  | cons y ys ih =>
    unfold insertReview
    split
    · exact List.Perm.refl _
    · exact ((ih.cons y).trans (List.Perm.swap x y ys))

theorem sortReview_perm (l : List ReviewItem) : (sortReview l).Perm l := by
  induction l with
  | nil => exact List.Perm.refl _
  | cons x xs ih =>
    exact (insertReview_perm x (sortReview xs)).trans (ih.cons x)

theorem length_filterMap_eq_length_filter {α β : Type} (f : α → Option β)
    (l : List α) :
    (l.filterMap f).length = (l.filter (fun a => (f a).isSome)).length := by
  induction l with
  | nil => rfl
  | cons x xs ih =>
    rw [List.filterMap_cons, List.filter_cons]
    cases hf : f x with
    | none => simpa [hf] using ih
    | some b => simpa [hf] using ih

/-- What `suggestItem` produces in ground-truth mode, split by the
comparison between prediction and ground truth. -/
theorem suggestItem_ground_truth (acts : List String) (thr : ℚ)
    (i : Nat) (p : BatchEntry) (hi : i < acts.length) :
    (pyNormLabel p.intent ≠ pyNormLabel (acts.getD i "") →
      suggestItem acts true thr (i, p)
        = some ⟨p.text, p.intent, p.confidence, some true⟩) ∧
    (pyNormLabel p.intent = pyNormLabel (acts.getD i "") → p.confidence ≤ thr →
      suggestItem acts true thr (i, p)
        = some ⟨p.text, p.intent, p.confidence, some false⟩) ∧
    (pyNormLabel p.intent = pyNormLabel (acts.getD i "") → ¬ p.confidence ≤ thr →
      suggestItem acts true thr (i, p) = none) := by
  unfold suggestItem
  dsimp only
  rw [if_pos (show (true = true) ∧ i < acts.length from ⟨rfl, hi⟩)]
  dsimp only
  refine ⟨?_, ?_, ?_⟩
  · intro hne
    rw [if_pos hne]
  · intro heq hconf
    rw [if_neg (by simpa using heq), if_pos hconf]
  · intro heq hconf
    rw [if_neg (by simpa using heq), if_neg hconf]

theorem suggestItem_isSome_iff (acts : List String) (thr : ℚ)
    (i : Nat) (p : BatchEntry) (hi : i < acts.length) :
    (suggestItem acts true thr (i, p)).isSome = suggestKeep acts thr (i, p) := by
  obtain ⟨h1, h2, h3⟩ := suggestItem_ground_truth acts thr i p hi
  by_cases hne : pyNormLabel p.intent ≠ pyNormLabel (acts.getD i "")
  · rw [h1 hne]
    unfold suggestKeep
    rw [decide_eq_true hne]
    simp
  · push_neg at hne
    by_cases hconf : p.confidence ≤ thr
    · rw [h2 hne hconf]
      unfold suggestKeep
      rw [decide_eq_false (not_not_intro hne), decide_eq_true hconf]
      simp
    · rw [h3 hne hconf]
      unfold suggestKeep
      rw [decide_eq_false (not_not_intro hne), decide_eq_false hconf]
      simp

/-- C5: in ground-truth mode (`actual_intents` as long as `texts`),
`suggest` succeeds, every returned item flagged `is_wrong=True` has a
normalised predicted intent different from the corresponding normalised
actual intent, every item flagged `is_wrong=False` has confidence at most
the threshold, and the number of returned items is exactly the number of
batch predictions that are wrong or unconfident — so a prediction that
matches the ground truth with confidence above the threshold contributes no
item. -/
theorem suggest_ground_truth_sound (st : NluState)
    (rasaExternal : String → Option (String × ℚ)) (texts acts : List String)
    (model_id : Option String) (threshold : Option ℚ)
    (hlen : acts.length = texts.length) (hne : texts ≠ []) :
    ∃ resp, suggest st rasaExternal texts (some acts) model_id threshold = .ok resp ∧
      (∀ item ∈ resp.items,
        (item.is_wrong = some false →
          item.predicted_confidence ≤ pyOrQ threshold (1 / 2)) ∧
        (item.is_wrong = some true → ∃ i p, i < texts.length ∧
          (suggestBatch st rasaExternal texts model_id).get? i = some p ∧
          item.predicted_intent = p.intent ∧
          pyNormLabel item.predicted_intent ≠ pyNormLabel (acts.getD i ""))) ∧
      resp.items.length
        = ((suggestBatch st rasaExternal texts model_id).enum.filter
            (suggestKeep acts (pyOrQ threshold (1 / 2)))).length := by
  unfold suggest
  rw [if_neg hne]
  have hbatch : predict_batch st rasaExternal texts (some (pyOrOptStr model_id "spacy"))
      false = .ok (suggestBatch st rasaExternal texts model_id) := by
    unfold predict_batch suggestBatch suggestEngine
    rw [if_neg hne]
  rw [hbatch]
  dsimp only
  simp only [Option.getD_some]
  rw [decide_eq_true hlen]
  have hplen : (suggestBatch st rasaExternal texts model_id).length = texts.length :=
    List.length_map _ _
  refine ⟨_, rfl, ?_, ?_⟩
  · intro item hitem
    have hitem' : item ∈ ((suggestBatch st rasaExternal texts model_id).enum).filterMap
        (suggestItem acts true (pyOrQ threshold (1 / 2))) :=
      (sortReview_perm _).mem_iff.1 hitem
    obtain ⟨⟨i, p⟩, hmem, hsome⟩ := List.mem_filterMap.1 hitem'
    have hgp : (suggestBatch st rasaExternal texts model_id).get? i = some p :=
      List.mk_mem_enum_iff_get?.mp hmem
    have hilt : i < texts.length := by
      rw [← hplen]
      exact (List.get?_eq_some.1 hgp).1
    have hia : i < acts.length := by rw [hlen]; exact hilt
    obtain ⟨h1, h2, h3⟩ :=
      suggestItem_ground_truth acts (pyOrQ threshold (1 / 2)) i p hia
    by_cases hwrong : pyNormLabel p.intent ≠ pyNormLabel (acts.getD i "")
    · rw [h1 hwrong] at hsome
      have hit : item = ⟨p.text, p.intent, p.confidence, some true⟩ :=
        (Option.some_injective _ hsome).symm
      subst hit
      constructor
      · intro hcon
        simp at hcon
      · intro _
        exact ⟨i, p, hilt, hgp, rfl, hwrong⟩
    · push_neg at hwrong
      by_cases hconf : p.confidence ≤ pyOrQ threshold (1 / 2)
      · rw [h2 hwrong hconf] at hsome
        have hit : item = ⟨p.text, p.intent, p.confidence, some false⟩ :=
          (Option.some_injective _ hsome).symm
        subst hit
        refine ⟨fun _ => hconf, ?_⟩
        intro hcon
        simp at hcon
      · rw [h3 hwrong hconf] at hsome
        exact Option.noConfusion hsome
  · have hlen0 := (sortReview_perm
      (((suggestBatch st rasaExternal texts model_id).enum).filterMap
        (suggestItem acts true (pyOrQ threshold (1 / 2))))).length_eq
    rw [hlen0, length_filterMap_eq_length_filter]
    refine congrArg List.length (List.filter_congr ?_)
    rintro ⟨i, p⟩ hmem
    have hgp : (suggestBatch st rasaExternal texts model_id).get? i = some p :=
      List.mk_mem_enum_iff_get?.mp hmem
    have hia : i < acts.length := by
      rw [hlen, ← hplen]
      exact (List.get?_eq_some.1 hgp).1
    exact suggestItem_isSome_iff acts (pyOrQ threshold (1 / 2)) i p hia

theorem suggest_ground_truth_sound_witness :
    ∃ resp, suggest initialState (fun _ => none) ["hi"] (some ["greet"]) none none
        = .ok resp ∧
      (∀ item ∈ resp.items,
        (item.is_wrong = some false →
          item.predicted_confidence ≤ pyOrQ none (1 / 2)) ∧
        (item.is_wrong = some true → ∃ i p, i < (["hi"] : List String).length ∧
          (suggestBatch initialState (fun _ => none) ["hi"] none).get? i = some p ∧
          item.predicted_intent = p.intent ∧
          pyNormLabel item.predicted_intent
            ≠ pyNormLabel ((["greet"] : List String).getD i ""))) ∧
      resp.items.length
        = ((suggestBatch initialState (fun _ => none) ["hi"] none).enum.filter
            (suggestKeep ["greet"] (pyOrQ none (1 / 2)))).length :=
  suggest_ground_truth_sound initialState (fun _ => none) ["hi"] ["greet"] none none
    (by decide) (by decide)

/-! ### C6 and C7: the evaluation split partitions the input; metrics are
finite -/

theorem splitIndices_snd_ne_nil (split : Option (List Nat × List Nat))
    (n pct : Nat) : (splitIndices split n pct).2 ≠ [] := by
  unfold splitIndices
  dsimp only
  split
  · split
    · simp
    · simp
  · rename_i h
    exact h

theorem splitFix_sum (tt : List Nat × List Nat) (n : Nat) (hn : n ≠ 0)
    (hsum : tt.1.length + tt.2.length = n) :
    (if tt.2 = [] then
        if tt.1 ≠ [] then (tt.1.dropLast, [tt.1.getLast?.getD 0]) else ([], [0])
      else tt).1.length +
    (if tt.2 = [] then
        if tt.1 ≠ [] then (tt.1.dropLast, [tt.1.getLast?.getD 0]) else ([], [0])
      else tt).2.length = n := by
  split
  · rename_i h2
    rw [h2] at hsum
    simp only [List.length_nil, Nat.add_zero] at hsum
    split
    · rename_i h1
      simp only [List.length_dropLast, List.length_singleton]
      have h1p : 1 ≤ tt.1.length := List.length_pos.2 h1
      omega
    · rename_i h1
      push_neg at h1
      rw [h1] at hsum
      simp only [List.length_nil] at hsum
      omega
  · exact hsum

theorem splitIndices_sum (sp : Option (List Nat × List Nat)) (n pct : Nat)
    (hn : n ≠ 0) (hpct : pct ≤ 100)
    (hsplit : ∀ tr te, sp = some (tr, te) → tr.length + te.length = n) :
    (splitIndices sp n pct).1.length + (splitIndices sp n pct).2.length = n := by
  cases hs : sp with
  | some tr_te =>
    have hsum : tr_te.1.length + tr_te.2.length = n := hsplit tr_te.1 tr_te.2 (by rw [hs])
    unfold splitIndices
    dsimp only
    exact splitFix_sum tr_te n hn hsum
  | none =>
    have hk : n * pct / 100 ≤ n := by
      calc n * pct / 100 ≤ n * 100 / 100 :=
            Nat.div_le_div_right (Nat.mul_le_mul_left n hpct)
        _ = n := by rw [Nat.mul_div_cancel _ (by norm_num)]
    have hsum : ((List.range n).take (n * pct / 100),
        (List.range n).drop (n * pct / 100)).1.length +
        ((List.range n).take (n * pct / 100),
          (List.range n).drop (n * pct / 100)).2.length = n := by
      simp only [List.length_take, List.length_drop, List.length_range]
      rw [min_eq_left hk]
      exact Nat.add_sub_cancel' hk
    unfold splitIndices
    dsimp only
    exact splitFix_sum _ n hn hsum

/-- C6: for every evaluation request with equal-length non-empty inputs and
any train percentage, seed and split-oracle outcome that partitions the
index array (as `train_test_split` does), `run_evaluation` succeeds with
`train_samples + test_samples = len(texts)`, and `test_samples ≥ 1` whenever
`len(texts) ≥ 2` (one training example is moved to test when the raw split
leaves test empty). -/
theorem run_evaluation_partition (st : NluState)
    (rasaExternal : String → Option (String × ℚ))
    (split : Option (List Nat × List Nat)) (orc : MetricsOracle)
    (texts true_intents : List String) (train_pct : Int)
    (mid : Option String) (strict : Bool)
    (hne : texts ≠ []) (hti : true_intents ≠ [])
    (hlen : texts.length = true_intents.length)
    (hsplit : ∀ tr te, split = some (tr, te) → tr.length + te.length = texts.length) :
    ∃ report, run_evaluation st rasaExternal split orc texts true_intents train_pct
        mid strict = .ok report ∧
      report.train_samples + report.test_samples = texts.length ∧
      (2 ≤ texts.length → 1 ≤ report.test_samples) := by
  have hpct : (max 0 (min 100 train_pct)).toNat ≤ 100 := by
    have hle : max 0 (min 100 train_pct) ≤ (100 : Int) :=
      max_le (by norm_num) (min_le_left _ _)
    calc (max 0 (min 100 train_pct)).toNat ≤ (100 : Int).toNat :=
          Int.toNat_le_toNat hle
      _ = 100 := rfl
  have hsnd := splitIndices_snd_ne_nil split texts.length
    (max 0 (min 100 train_pct)).toNat
  have hsum := splitIndices_sum split texts.length (max 0 (min 100 train_pct)).toNat
    (fun hcon => hne (List.length_eq_zero.1 hcon)) hpct hsplit
  unfold run_evaluation
  rw [if_neg (by push_neg; exact ⟨hne, hti, hlen⟩)]
  dsimp only
  have hbatch : predict_batch st rasaExternal
      ((splitIndices split texts.length (max 0 (min 100 train_pct)).toNat).2.map
        (fun i => texts.getD i ""))
      (some (pyOrOptStr mid "spacy")) strict
      = .ok (((splitIndices split texts.length (max 0 (min 100 train_pct)).toNat).2.map
          (fun i => texts.getD i "")).map
        (batchItem st rasaExternal (pyLower (pyOrOptStr (some (pyOrOptStr mid "spacy")) "spacy")))) := by
    unfold predict_batch
    rw [if_neg (by simpa using hsnd)]
  rw [hbatch]
  dsimp only
  refine ⟨_, rfl, hsum, ?_⟩
  intro _
  exact List.length_pos.2 hsnd

theorem run_evaluation_partition_witness :
    ∃ report, run_evaluation initialState (fun _ => none) none
        ⟨fun _ _ => some (.finite 0), fun _ _ => some (.finite 0, .finite 0, .finite 0),
          fun _ _ _ => some (fun _ => (.finite 0, .finite 0, .finite 0, 0))⟩
        ["a", "b"] ["x", "y"] 80 none true = .ok report ∧
      report.train_samples + report.test_samples = (["a", "b"] : List String).length ∧
      (2 ≤ (["a", "b"] : List String).length → 1 ≤ report.test_samples) :=
  run_evaluation_partition initialState (fun _ => none) none _ ["a", "b"] ["x", "y"]
    80 none true (by decide) (by decide) (by decide)
    (fun tr te h => Option.noConfusion h)

theorem safe_round_isFinite (x : PyFloat) : (safe_round x).isFinite = true := by
  cases x <;> rfl

theorem metrics_summary_finite (orc : MetricsOracle) (y_true y_pred : List String) :
    (metrics_summary orc y_true y_pred).accuracy.isFinite = true ∧
      (metrics_summary orc y_true y_pred).precision.isFinite = true ∧
      (metrics_summary orc y_true y_pred).recallVal.isFinite = true ∧
      (metrics_summary orc y_true y_pred).f1.isFinite = true := by
  unfold metrics_summary
  split
  · exact ⟨rfl, rfl, rfl, rfl⟩
  · dsimp only
    split
    · exact ⟨safe_round_isFinite _, rfl, rfl, rfl⟩
    · exact ⟨safe_round_isFinite _, safe_round_isFinite _, safe_round_isFinite _,
        safe_round_isFinite _⟩

theorem per_intent_report_finite (orc : MetricsOracle) (y_true y_pred : List String) :
    ∀ row ∈ per_intent_report orc y_true y_pred,
      row.precision.isFinite = true ∧ row.recallVal.isFinite = true ∧
        row.f1.isFinite = true := by
  intro row hrow
  unfold per_intent_report at hrow
  dsimp only at hrow
  split at hrow
  · exact absurd hrow (List.not_mem_nil row)
  · split at hrow
    · obtain ⟨l, _, rfl⟩ := List.mem_map.1 hrow
      exact ⟨rfl, rfl, rfl⟩
    · obtain ⟨l, _, rfl⟩ := List.mem_map.1 hrow
      exact ⟨safe_round_isFinite _, safe_round_isFinite _, safe_round_isFinite _⟩

/-- C7: every evaluation report reaching the caller carries only finite
metric values: the four aggregate metrics and the per-intent
precision/recall/f1 values all pass through `safe_round`, which substitutes
0.0 for NaN and infinities, whatever the underlying metric library returns —
in particular the degenerate single-sample, `train_pct=0` evaluation
returns finite metrics rather than failing (see the witness). -/
theorem run_evaluation_metrics_finite (st : NluState)
    (rasaExternal : String → Option (String × ℚ))
    (split : Option (List Nat × List Nat)) (orc : MetricsOracle)
    (texts true_intents : List String) (train_pct : Int)
    (mid : Option String) (strict : Bool)
    (hne : texts ≠ []) (hti : true_intents ≠ [])
    (hlen : texts.length = true_intents.length) :
    ∃ report, run_evaluation st rasaExternal split orc texts true_intents train_pct
        mid strict = .ok report ∧
      report.metrics.accuracy.isFinite = true ∧
      report.metrics.precision.isFinite = true ∧
      report.metrics.recallVal.isFinite = true ∧
      report.metrics.f1.isFinite = true ∧
      ∀ row ∈ report.per_intent,
        row.precision.isFinite = true ∧ row.recallVal.isFinite = true ∧
          row.f1.isFinite = true := by
  have hsnd := splitIndices_snd_ne_nil split texts.length
    (max 0 (min 100 train_pct)).toNat
  unfold run_evaluation
  rw [if_neg (by push_neg; exact ⟨hne, hti, hlen⟩)]
  dsimp only
  have hbatch : predict_batch st rasaExternal
      ((splitIndices split texts.length (max 0 (min 100 train_pct)).toNat).2.map
        (fun i => texts.getD i ""))
      (some (pyOrOptStr mid "spacy")) strict
      = .ok (((splitIndices split texts.length (max 0 (min 100 train_pct)).toNat).2.map
          (fun i => texts.getD i "")).map
        (batchItem st rasaExternal (pyLower (pyOrOptStr (some (pyOrOptStr mid "spacy")) "spacy")))) := by
    unfold predict_batch
    rw [if_neg (by simpa using hsnd)]
  rw [hbatch]
  dsimp only
  obtain ⟨h1, h2, h3, h4⟩ := metrics_summary_finite orc
    (((splitIndices split texts.length (max 0 (min 100 train_pct)).toNat).2.map
      (fun i => true_intents.getD i "")).map pyNormLabel)
    ((((splitIndices split texts.length (max 0 (min 100 train_pct)).toNat).2.map
      (fun i => texts.getD i "")).map
        (batchItem st rasaExternal (pyLower (pyOrOptStr (some (pyOrOptStr mid "spacy")) "spacy")))).map
      (fun p => pyNormLabel p.intent))
  exact ⟨_, rfl, h1, h2, h3, h4, per_intent_report_finite orc _ _⟩

theorem run_evaluation_metrics_finite_witness :
    ∃ report, run_evaluation initialState (fun _ => none) none
        ⟨fun _ _ => some .nan, fun _ _ => some (.nan, .inf, .ninf),
          fun _ _ _ => some (fun _ => (.nan, .inf, .ninf, 0))⟩
        ["a"] ["x"] 0 none true = .ok report ∧
      report.metrics.accuracy.isFinite = true ∧
      report.metrics.precision.isFinite = true ∧
      report.metrics.recallVal.isFinite = true ∧
      report.metrics.f1.isFinite = true ∧
      ∀ row ∈ report.per_intent,
        row.precision.isFinite = true ∧ row.recallVal.isFinite = true ∧
          row.f1.isFinite = true :=
  run_evaluation_metrics_finite initialState (fun _ => none) none _ ["a"] ["x"] 0
    none true (by decide) (by decide) (by decide)

end BotTrainer
